import Mathlib

/-!
Verification development for the customer-support orchestration core
(`customer_support_agent.py` and `customer_database.py`).

The Python code is shallowly embedded: pure text manipulation (the two
regular expressions of `_scrub_pii`, `str.split`, `str.lower`, the `in`
substring test) is translated to executable functions on `List Char`;
the LangGraph state machine built by `_build_graph` is translated to a
fueled step interpreter whose channel-merge semantics follow the reducer
declared in the source (`messages: Annotated[Sequence[BaseMessage],
operator.add]`: the `messages` entry of a node's returned mapping is
appended to the channel, every other key overwrites), and whose step
bound is the engine's default recursion limit of 25, exceeded with a
surfaced recursion error.  External collaborators (the routing LLM, the
customer directory, the ticket store) are oracles packaged in `Env`;
a `.error` result models the Python call raising.
-/

namespace SupportAgent

/-! ## Character classes used by the source regexes -/

/-- Python `\w` restricted to ASCII together with `.` and `-`: the
character class `[\w\.-]` of the email regex in `_scrub_pii` and
`_identify_node`. -/
def isEmailChar (c : Char) : Bool :=
  c.isAlphanum || c = '_' || c = '.' || c = '-'

/-- Python `[\s-]`: a whitespace character or a dash. -/
def isSepChar (c : Char) : Bool :=
  c.isWhitespace || c = '-'

/-! ## The email regex `[\w\.-]+@[\w\.-]+`

A match at a given position exists iff the maximal `[\w\.-]` run there is
nonempty, is followed by `@`, and `@` is followed by another nonempty run
(backtracking inside the runs can never expose an `@`, since `@` is not in
the class). -/

/-- Length of the maximal `[\w\.-]*` run at the head of the list. -/
def wordRun : List Char → Nat
  | [] => 0
  | c :: cs => if isEmailChar c then wordRun cs + 1 else 0

/-- Length of the (unique, greedily preferred) match of
`[\w\.-]+@[\w\.-]+` anchored at the head of the list, if any. -/
def emailMatchLen (cs : List Char) : Option Nat :=
  let r1 := wordRun cs
  if r1 = 0 then none
  else
    match cs.drop r1 with
    | '@' :: rest =>
      let r2 := wordRun rest
      if r2 = 0 then none else some (r1 + 1 + r2)
    | _ => none

/-! ## The phone regex `\+?\d{1,3}[\s-]?\(?\d{3}\)?[\s-]?\d{3}[\s-]?\d{4}`

All pieces except `\d{1,3}` are optional single characters or fixed-width
digit groups.  The greedy choice for `\d{1,3}` is realised by trying the
widths 3, 2, 1 in this order; this coincides with Python's backtracking
order because the only preceding optional item `\+?` is forced (it can
succeed only when the first character is `+`, in which case skipping it
makes every later digit group fail on `+`). -/

inductive RItem where
  /-- An optional single character (`X?`): try consuming, else skip. -/
  | optChar (p : Char → Bool)
  /-- Exactly `n` digits (`\d{n}`). -/
  | exact (n : Nat)

/-- Match a sequence of `RItem`s at the head of the list, returning the
number of characters consumed under Python's greedy preference. -/
def matchItems : List RItem → List Char → Option Nat
  | [], _ => some 0
  | RItem.optChar p :: rest, cs =>
    match cs with
    | [] => matchItems rest []
    | c :: cs' =>
      if p c then
        match matchItems rest cs' with
        | some n => some (n + 1)
        | none => matchItems rest (c :: cs')
      else matchItems rest (c :: cs')
  | RItem.exact n :: rest, cs =>
    if n ≤ cs.length ∧ (cs.take n).all Char.isDigit then
      (matchItems rest (cs.drop n)).map (· + n)
    else none

/-- The phone pattern with the country-code group `\d{1,3}` fixed to
width `k`. -/
def phoneItems (k : Nat) : List RItem :=
  [RItem.optChar (· = '+'), RItem.exact k, RItem.optChar isSepChar,
   RItem.optChar (· = '('), RItem.exact 3, RItem.optChar (· = ')'),
   RItem.optChar isSepChar, RItem.exact 3, RItem.optChar isSepChar,
   RItem.exact 4]

/-- Length of the match of the phone regex anchored at the head of the
list, if any (greedy: width 3 for `\d{1,3}` first, then 2, then 1). -/
def phoneMatchLen (cs : List Char) : Option Nat :=
  match matchItems (phoneItems 3) cs with
  | some n => some n
  | none =>
    match matchItems (phoneItems 2) cs with
    | some n => some n
    | none => matchItems (phoneItems 1) cs

/-! ## `re.sub` and `re.search` -/

/-- One pass of `re.sub`: scan left to right; at each position, if the
anchored matcher fires, emit the replacement and resume after the match,
otherwise emit the character and advance by one.  The fuel is consumed
once per emitted unit; `fuel = cs.length` always suffices because both
source matchers consume at least one character. -/
def subScan (m : List Char → Option Nat) (repl : List Char) :
    Nat → List Char → List Char
  | 0, cs => cs
  | _ + 1, [] => []
  | fuel + 1, c :: cs =>
    match m (c :: cs) with
    | some (n + 1) => repl ++ subScan m repl fuel ((c :: cs).drop (n + 1))
    | _ => c :: subScan m repl fuel cs

/-- `re.sub(pattern, repl, s)` for the two source patterns. -/
def pySub (m : List Char → Option Nat) (repl : String) (s : String) : String :=
  ⟨subScan m repl.data s.data.length s.data⟩

/-- `re.search(r'[\w\.-]+@[\w\.-]+', s)`: the leftmost email-shaped
substring, if any (`match.group()` of `_identify_node`). -/
def emailFind : List Char → Option (List Char)
  | [] => none
  | c :: cs =>
    match emailMatchLen (c :: cs) with
    | some n => some ((c :: cs).take n)
    | none => emailFind cs

def emailSearch (s : String) : Option String :=
  (emailFind s.data).map (fun l => ⟨l⟩)

/-! ## `_scrub_pii` -/

/-- `CustomerSupportAgent._scrub_pii`: mask email-shaped substrings with
`[EMAIL_MASKED]`, then phone-shaped substrings with `[PHONE_MASKED]`. -/
def scrub_pii (text : String) : String :=
  pySub phoneMatchLen "[PHONE_MASKED]" (pySub emailMatchLen "[EMAIL_MASKED]" text)

/-! ## `str.split`, `str.lower`, the `in` substring test -/

/-- Helper for `pySplit`: accumulate the current word (reversed). -/
def splitWSAux : List Char → List Char → List (List Char)
  | [], acc => if acc.isEmpty then [] else [acc.reverse]
  | c :: cs, acc =>
    if c.isWhitespace then
      if acc.isEmpty then splitWSAux cs [] else acc.reverse :: splitWSAux cs []
    else splitWSAux cs (c :: acc)

/-- Python `str.split()` with no argument: split on whitespace runs,
discarding empty fields. -/
def pySplit (s : String) : List String :=
  (splitWSAux s.data []).map (fun l => ⟨l⟩)

/-- Python `str.lower()` (ASCII fragment used by the source). -/
def pyLower (s : String) : String :=
  ⟨s.data.map Char.toLower⟩

def isPrefixL : List Char → List Char → Bool
  | [], _ => true
  | _ :: _, [] => false
  | a :: as, b :: bs => a = b && isPrefixL as bs

def containsSubL (needle : List Char) : List Char → Bool
  | [] => isPrefixL needle []
  | c :: cs => isPrefixL needle (c :: cs) || containsSubL needle cs

/-- Python `needle in hay` on strings: substring containment. -/
def containsSub (needle hay : String) : Bool :=
  containsSubL needle.data hay.data

/-! ## Messages and `_trim_messages` -/

inductive Role where
  | system
  | human
  | assistant
deriving DecidableEq

structure Message where
  role : Role
  content : String
deriving DecidableEq

/-- `CustomerSupportAgent._trim_messages`: keep the input if it has at
most `max_messages` entries; otherwise keep the leading system message
(when present) plus the last `max_messages - 1` entries, or simply the
last `max_messages` entries. -/
def _trim_messages (messages : List Message) (max_messages : Nat) : List Message :=
  if messages.length ≤ max_messages then messages
  else
    match messages with
    | [] => []
    | m0 :: _ =>
      if m0.role = Role.system then
        m0 :: messages.drop (messages.length - (max_messages - 1))
      else
        messages.drop (messages.length - max_messages)

/-! ## The conversation state (`CustomerSupportState`) -/

/-- The `CustomerSupportState` TypedDict.  `Optional` fields are
`Option`; keys that `start_conversation` leaves absent and no node ever
writes (`ticket_id`, `current_step`, `customer_sentiment`) are `Option`
with `none` for "absent". -/
structure CustomerSupportState where
  messages : List Message
  customer_id : Option String
  customer_name : Option String
  customer_tier : String
  active_agent : String
  resolved : Bool
  requires_escalation : Bool
  is_human_takeover : Bool
  ticket_id : Option String
  current_step : Option String
  customer_sentiment : Option String
  total_tokens : Nat
deriving DecidableEq

/-- The `Literal` type of `RouterDecision.next_agent` (pydantic enforces
membership, so a successful decision call always yields one of these). -/
inductive NextAgent where
  | order_specialist
  | tech_specialist
  | billing_specialist
  | general_support
  | escalate
  | end_conv
deriving DecidableEq

def NextAgent.toStr : NextAgent → String
  | .order_specialist => "order_specialist"
  | .tech_specialist => "tech_specialist"
  | .billing_specialist => "billing_specialist"
  | .general_support => "general_support"
  | .escalate => "escalate"
  | .end_conv => "end"

structure RouterDecision where
  next_agent : NextAgent
  reasoning : String

structure Customer where
  customer_id : String
  name : String
  tier : String

structure Order where
  order_id : String
  status : String
  items : String
  estimated_delivery : String
deriving DecidableEq

/-- Errors that escape `graph.invoke` / `graph.stream` to the caller. -/
inductive AgentError where
  /-- The engine's `GraphRecursionError`: the default per-invocation step
  bound of 25 was exceeded. -/
  | recursionLimit
  /-- An uncaught exception raised by a directory / storage call. -/
  | storageError
  /-- `messages[-1]` on an empty message list (`IndexError`). -/
  | indexError
  /-- `active_agent` held no key of the conditional-edge mapping. -/
  | invalidEdge
deriving DecidableEq

/-- The external collaborators.  `route` receives the index of the
reasoning call within the current graph invocation and the prompt built
by `_supervisor_node`; an `.error` result models the Python call
raising, which the source catches (`route`) or lets propagate (the
rest). -/
structure Env where
  route : Nat → String → Except Unit RouterDecision
  lookupByEmail : String → Except Unit (Option Customer)
  lookupOrders : String → Except Unit (List Order)
  createTicket : Option String → Except Unit String
  saveConversation : List String → Except Unit Unit

/-! ## The graph nodes

Each node is translated as the function from the current channel values
to the mapping it returns.  Since every source node returns
`{**state, ...}`, the returned mapping always carries *all* keys; in
particular its `messages` entry is the full current history unless the
node overrides it with a fresh singleton list.  Nodes also thread the
count of reasoning calls made so far in this invocation. -/

/-- `CustomerSupportAgent._identify_node`. -/
def identify_node (env : Env) (st : CustomerSupportState) (k : Nat) :
    Except AgentError (CustomerSupportState × Nat) :=
  if st.customer_id.isSome then .ok (st, k)
  else
    let last_msg := ((st.messages.getLast?).map Message.content).getD ""
    match emailSearch last_msg with
    | none => .ok (st, k)
    | some email =>
      match env.lookupByEmail email with
      | .error _ => .error .storageError
      | .ok none => .ok (st, k)
      | .ok (some c) =>
        .ok ({ st with customer_id := some c.customer_id,
                       customer_name := some c.name,
                       customer_tier := c.tier }, k)

/-- `CustomerSupportAgent._supervisor_node`. -/
def supervisor_node (env : Env) (st : CustomerSupportState) (k : Nat) :
    Except AgentError (CustomerSupportState × Nat) :=
  if st.is_human_takeover then .ok ({ st with active_agent := "end" }, k)
  else
    let trimmed := _trim_messages st.messages 10
    match trimmed.getLast? with
    | none => .error .indexError
    | some lastM =>
      if lastM.role = Role.assistant ∧ containsSub "help you today" lastM.content then
        .ok ({ st with active_agent := "end" }, k)
      else
        let prompt := "Supervisor: Decide specialist based on: " ++ lastM.content
        match env.route k prompt with
        | .ok d => .ok ({ st with active_agent := d.next_agent.toStr }, k + 1)
        | .error _ => .ok ({ st with active_agent := "general_support" }, k + 1)

/-- `CustomerSupportAgent._order_agent_node`. -/
def order_agent_node (env : Env) (st : CustomerSupportState) (k : Nat) :
    Except AgentError (CustomerSupportState × Nat) :=
  match st.customer_id with
  | none =>
    .ok ({ st with messages :=
      [⟨Role.assistant, "I can help with orders! Please provide your email."⟩] }, k)
  | some cid =>
    match env.lookupOrders cid with
    | .error _ => .error .storageError
    | .ok orders =>
      let resp :=
        match orders with
        | [] => "I found no active orders in your history."
        | o :: _ =>
          "Your latest order " ++ o.order_id ++ " (" ++ o.items ++
            ") is currently " ++ o.status ++ "."
      .ok ({ st with messages := [⟨Role.assistant, resp ++ "\nAnything else?"⟩] }, k)

/-- `CustomerSupportAgent._tech_agent_node`. -/
def tech_agent_node (st : CustomerSupportState) (k : Nat) :
    Except AgentError (CustomerSupportState × Nat) :=
  match st.messages.getLast? with
  | none => .error .indexError
  | some lastM =>
    let query := pyLower lastM.content
    let ans :=
      if containsSub "password" query then "Go to login -> Forgot Password."
      else if containsSub "login" query then "Ensure cookies are enabled and try Incognito mode."
      else "Please describe your technical issue in more detail."
    .ok ({ st with messages :=
      [⟨Role.assistant, "Tech Specialist: " ++ ans ++ "\nDid that help?"⟩] }, k)

/-- `CustomerSupportAgent._billing_agent_node`. -/
def billing_agent_node (st : CustomerSupportState) (k : Nat) :
    Except AgentError (CustomerSupportState × Nat) :=
  match st.messages.getLast? with
  | none => .error .indexError
  | some lastM =>
    let msg := pyLower lastM.content
    if containsSub "refund" msg || containsSub "charge" msg || containsSub "dispute" msg then
      .ok ({ st with active_agent := "escalate" }, k)
    else
      .ok ({ st with messages :=
        [⟨Role.assistant, "Billing Specialist here. All your payments are up to date!"⟩] }, k)

/-- `CustomerSupportAgent._general_support_node`. -/
def general_support_node (st : CustomerSupportState) (k : Nat) :
    Except AgentError (CustomerSupportState × Nat) :=
  .ok ({ st with messages :=
    [⟨Role.assistant, "Generalist here. How can I help you?"⟩] }, k)

/-- `CustomerSupportAgent._escalation_node`.  The conversation record is
persisted (masked transcript), then a ticket is created; a failure of
either external call propagates.  Note the source passes
`state.get("customer_id", "GUEST")`, whose default never fires because
the key is always present (possibly `None`), so the ticket call receives
the raw optional id. -/
def escalation_node (env : Env) (st : CustomerSupportState) (k : Nat) :
    Except AgentError (CustomerSupportState × Nat) :=
  match env.saveConversation (st.messages.map (fun m => scrub_pii m.content)) with
  | .error _ => .error .storageError
  | .ok _ =>
    match env.createTicket st.customer_id with
    | .error _ => .error .storageError
    | .ok tid =>
      .ok ({ st with
        messages := [⟨Role.assistant,
          "ESCALATION: A human will help you. Ticket #" ++ tid ++ ". AI is now paused."⟩],
        is_human_takeover := true }, k)

/-! ## The graph built by `_build_graph` -/

inductive NodeId where
  | identify
  | supervisor
  | order_agent
  | tech_agent
  | billing_agent
  | general_agent
  | escalate
deriving DecidableEq

def nodeName : NodeId → String
  | .identify => "identify"
  | .supervisor => "supervisor"
  | .order_agent => "order_agent"
  | .tech_agent => "tech_agent"
  | .billing_agent => "billing_agent"
  | .general_agent => "general_agent"
  | .escalate => "escalate"

/-- Run one node on the current channel values. -/
def execNode (env : Env) :
    NodeId → CustomerSupportState → Nat → Except AgentError (CustomerSupportState × Nat)
  | .identify, st, k => identify_node env st k
  | .supervisor, st, k => supervisor_node env st k
  | .order_agent, st, k => order_agent_node env st k
  | .tech_agent, st, k => tech_agent_node st k
  | .billing_agent, st, k => billing_agent_node st k
  | .general_agent, st, k => general_support_node st k
  | .escalate, st, k => escalation_node env st k

/-- Apply a node's returned mapping to the channels: `messages` is
declared `Annotated[Sequence[BaseMessage], operator.add]`, so its entry
is appended; every other key overwrites its channel. -/
def mergeUpdate (old upd : CustomerSupportState) : CustomerSupportState :=
  { upd with messages := old.messages ++ upd.messages }

/-- The edges of `_build_graph`: `identify → supervisor`; conditional
edges out of `supervisor` keyed by `active_agent`; every specialist
except `escalate` loops back to `supervisor`; `escalate → END`.
`none` is `END`; an unknown `active_agent` value raises. -/
def nextNode : NodeId → CustomerSupportState → Except AgentError (Option NodeId)
  | .identify, _ => .ok (some .supervisor)
  | .supervisor, st =>
    if st.active_agent = "order_specialist" then .ok (some .order_agent)
    else if st.active_agent = "tech_specialist" then .ok (some .tech_agent)
    else if st.active_agent = "billing_specialist" then .ok (some .billing_agent)
    else if st.active_agent = "general_support" then .ok (some .general_agent)
    else if st.active_agent = "escalate" then .ok (some .escalate)
    else if st.active_agent = "end" then .ok none
    else .error .invalidEdge
  | .order_agent, _ => .ok (some .supervisor)
  | .tech_agent, _ => .ok (some .supervisor)
  | .billing_agent, _ => .ok (some .supervisor)
  | .general_agent, _ => .ok (some .supervisor)
  | .escalate, _ => .ok none

/-- The engine's default recursion limit. -/
def recursion_limit : Nat := 25

/-- Fueled execution from a node: runs nodes sequentially, merging each
returned mapping into the channels and recording one stream event
`(node name, returned mapping)` per executed node, until `END`.
Exhausting the fuel before reaching `END` surfaces the recursion
error. -/
def runFrom (env : Env) :
    Nat → NodeId → CustomerSupportState → Nat →
    Except AgentError (CustomerSupportState × Nat × List (String × CustomerSupportState))
  | 0, _, _, _ => .error .recursionLimit
  | fuel + 1, n, st, k =>
    match execNode env n st k with
    | .error e => .error e
    | .ok (upd, k') =>
      let st' := mergeUpdate st upd
      match nextNode n st' with
      | .error e => .error e
      | .ok none => .ok (st', k', [(nodeName n, upd)])
      | .ok (some n') =>
        match runFrom env fuel n' st' k' with
        | .error e => .error e
        | .ok (fs, kf, evs) => .ok (fs, kf, (nodeName n, upd) :: evs)

/-- `graph.invoke` / `graph.stream`: run from the entry point
`identify` with the default recursion limit, returning the final merged
state, the number of reasoning calls made, and the stream events. -/
def runGraph (env : Env) (st : CustomerSupportState) :
    Except AgentError (CustomerSupportState × Nat × List (String × CustomerSupportState)) :=
  runFrom env recursion_limit .identify st 0

/-! ## The public API -/

/-- `CustomerSupportAgent.start_conversation`. -/
def start_conversation : CustomerSupportState :=
  { messages := [⟨Role.assistant, "Welcome to Enterprise Support. How can I help today?"⟩]
    customer_id := none
    customer_name := none
    customer_tier := "standard"
    active_agent := "supervisor"
    resolved := false
    requires_escalation := false
    is_human_takeover := false
    ticket_id := none
    current_step := none
    customer_sentiment := none
    total_tokens := 0 }

/-- The shared preamble of `send_message` and `stream_message`: scrub
the inbound text, append it as a human message, and bump the token
estimate by `len(safe_msg.split()) * 2 + 100` — all before graph
execution. -/
def ingest (st : CustomerSupportState) (message : String) : CustomerSupportState :=
  let safe_msg := scrub_pii message
  { st with
    messages := st.messages ++ [⟨Role.human, safe_msg⟩]
    total_tokens := st.total_tokens + ((pySplit safe_msg).length * 2 + 100) }

/-- `CustomerSupportAgent.send_message`: synchronous execution,
returning the final state. -/
def send_message (env : Env) (st : CustomerSupportState) (message : String) :
    Except AgentError CustomerSupportState :=
  (runGraph env (ingest st message)).map (fun r => r.1)

/-- `CustomerSupportAgent.stream_message`: streaming execution, yielding
one `(node name, returned mapping)` event per executed node, in
execution order. -/
def stream_message (env : Env) (st : CustomerSupportState) (message : String) :
    Except AgentError (List (String × CustomerSupportState)) :=
  (runGraph env (ingest st message)).map (fun r => r.2.2)

/-- Number of reasoning-capability calls made during one `send_message`
invocation. -/
def routerCalls (env : Env) (st : CustomerSupportState) (message : String) :
    Except AgentError Nat :=
  (runGraph env (ingest st message)).map (fun r => r.2.1)

/-! ## Concrete environments and states used by witnesses and
counterexamples -/

/-- An environment whose reasoning capability always raises and whose
directory is empty. -/
def envNoRoute : Env :=
  { route := fun _ _ => .error ()
    lookupByEmail := fun _ => .ok none
    lookupOrders := fun _ => .ok []
    createTicket := fun _ => .ok "TICK-260101120000"
    saveConversation := fun _ => .ok () }

/-- Route to the generalist twice, then end. -/
def envGeneralTwice : Env :=
  { envNoRoute with
    route := fun k _ =>
      if k ≤ 1 then .ok ⟨.general_support, "generic"⟩ else .ok ⟨.end_conv, "done"⟩ }

/-- Route to billing first, then to the generalist, then end. -/
def envBilling : Env :=
  { envNoRoute with
    route := fun k _ =>
      if k = 0 then .ok ⟨.billing_specialist, "billing"⟩
      else if k = 1 then .ok ⟨.general_support, "generic"⟩
      else .ok ⟨.end_conv, "done"⟩ }

/-- Route straight to escalation. -/
def envEscalate : Env :=
  { envNoRoute with route := fun _ _ => .ok ⟨.escalate, "angry"⟩ }

/-- Route to the order specialist; the order lookup raises. -/
def envOrderFail : Env :=
  { envNoRoute with
    route := fun _ _ => .ok ⟨.order_specialist, "order"⟩
    lookupOrders := fun _ => .error () }

/-- The two orders seeded for customer `C1` by `_seed_data`, in
insertion (rowid) order: the `SELECT` of `get_customer_orders` has no
`ORDER BY`, so SQLite returns them in this order. -/
def seededOrders : List Order :=
  [⟨"ORD-123", "Shipped", "Wireless Headphones, USB-C Cable", "2026-01-30"⟩,
   ⟨"ORD-456", "Processing", "Smart Watch", "2026-02-05"⟩]

/-- A directory holding the seeded orders of customer `C1`. -/
def envSeeded : Env :=
  { envNoRoute with
    route := fun _ _ => .ok ⟨.order_specialist, "order"⟩
    lookupOrders := fun cid => if cid = "C1" then .ok seededOrders else .ok [] }

/-- A fresh conversation already bound to customer `C1`. -/
def stCustomerC1 : CustomerSupportState :=
  { start_conversation with customer_id := some "C1" }

/-- A fresh conversation after human takeover (its greeting is an
assistant message). -/
def stTakenOver : CustomerSupportState :=
  { start_conversation with is_human_takeover := true }

/-- Strict lexicographic order on character lists (used to compare the
ISO dates of the seeded orders). -/
def lexLt : List Char → List Char → Bool
  | [], [] => false
  | [], _ :: _ => true
  | _ :: _, [] => false
  | a :: as, b :: bs => a < b || (a = b && lexLt as bs)

/-! ## C2 — the redactor on the spec's round-trip input

`redact("contact me at a@b.com or 415-555-0100")` masks the email but
NOT the phone number: the phone pattern
`\+?\d{1,3}[\s-]?\(?\d{3}\)?[\s-]?\d{3}[\s-]?\d{4}` has a mandatory
country-code digit group, so it needs at least 11 digits, and a bare
10-digit US number survives. -/

/-- C2: evaluating `_scrub_pii` at the spec's round-trip input shows the
email placeholder is produced but the phone number `415-555-0100`
survives unmasked — the phone placeholder never appears and the full
phone digit string remains in the output. -/
theorem C2_scrub_pii_leaves_phone :
    scrub_pii "contact me at a@b.com or 415-555-0100" =
      "contact me at [EMAIL_MASKED] or 415-555-0100" ∧
    containsSub "[EMAIL_MASKED]" (scrub_pii "contact me at a@b.com or 415-555-0100") = true ∧
    containsSub "[PHONE_MASKED]" (scrub_pii "contact me at a@b.com or 415-555-0100") = false ∧
    containsSub "415-555-0100" (scrub_pii "contact me at a@b.com or 415-555-0100") = true := by
  refine ⟨by decide, by decide, by decide, by decide⟩

/-! ## C3 — `_trim_messages` -/

/-- Unfolding of `_trim_messages` on a nonempty list at the default
bound. -/
lemma trim_cons_eq (m0 : Message) (rest : List Message) :
    _trim_messages (m0 :: rest) 10 =
      if (m0 :: rest).length ≤ 10 then m0 :: rest
      else if m0.role = Role.system then
        m0 :: (m0 :: rest).drop ((m0 :: rest).length - 9)
      else (m0 :: rest).drop ((m0 :: rest).length - 10) := rfl

/-- C3: if the list has at most 10 entries it is returned unchanged;
otherwise exactly 10 entries are returned — the leading system message
(when present) followed by the last 9 in order, else the last 10 in
order. -/
theorem C3_trim_messages (msgs : List Message) :
    (msgs.length ≤ 10 → _trim_messages msgs 10 = msgs) ∧
    (10 < msgs.length →
      (_trim_messages msgs 10).length = 10 ∧
      ∀ m0 rest, msgs = m0 :: rest →
        _trim_messages msgs 10 =
          if m0.role = Role.system then m0 :: msgs.drop (msgs.length - 9)
          else msgs.drop (msgs.length - 10)) := by
  constructor
  · intro h
    unfold _trim_messages
    rw [if_pos h]
  · intro h
    obtain ⟨m0, rest, rfl⟩ : ∃ m0 rest, msgs = m0 :: rest := by
      cases msgs with
      | nil => simp at h
      | cons a l => exact ⟨a, l, rfl⟩
    constructor
    · rw [trim_cons_eq, if_neg (by omega)]
      by_cases hs : m0.role = Role.system
      · rw [if_pos hs]
        simp only [List.length_cons, List.length_drop] at h ⊢
        omega
      · rw [if_neg hs]
        simp only [List.length_cons, List.length_drop] at h ⊢
        omega
    · intro a l hmr
      cases hmr
      rw [trim_cons_eq, if_neg (by omega)]

/-- Twelve messages, the first of role `system`, the rest human,
numbered by content. -/
def msgs12sys : List Message :=
  ⟨Role.system, "0"⟩ :: (List.range 11).map (fun i => ⟨Role.human, toString (i + 1)⟩)

/-- C3 witness: 12 messages whose first has role `system`; `trim`
returns message 0 followed by messages 3–11 (10 total, in order). -/
theorem C3_trim_messages_witness :
    10 < (msgs12sys.length) ∧
    (_trim_messages msgs12sys 10).length = 10 ∧
    _trim_messages msgs12sys 10 = ⟨Role.system, "0"⟩ :: msgs12sys.drop 3 := by
  have h := (C3_trim_messages msgs12sys).2 (by decide)
  refine ⟨by decide, h.1, ?_⟩
  have h2 := h.2 ⟨Role.system, "0"⟩ (msgs12sys.drop 1) (by decide)
  rw [h2]
  decide

/-! ## C9 — the order specialist on the seeded data

`get_customer_orders` issues a `SELECT` with no `ORDER BY` and
`_order_agent_node` reports `orders[0]`, so with the seeded rows the
reply announces `ORD-123` as "Your latest order" although `ORD-456` has
the later `estimated_delivery`. -/

/-- C9: with `customer_id = C1` and the seeded order rows, the node
appends exactly one assistant message reporting the FIRST returned row
(`ORD-123`), even though the other row (`ORD-456`) is more recent
(strictly later `estimated_delivery`); no reasoning call is made. -/
theorem C9_order_agent_reports_first_row :
    order_agent_node envSeeded stCustomerC1 0 =
      .ok ({ stCustomerC1 with messages :=
        [⟨Role.assistant,
          "Your latest order ORD-123 (Wireless Headphones, USB-C Cable) is currently Shipped.\nAnything else?"⟩] }, 0) ∧
    envSeeded.lookupOrders "C1" = .ok seededOrders ∧
    seededOrders.map Order.estimated_delivery = ["2026-01-30", "2026-02-05"] ∧
    lexLt "2026-01-30".data "2026-02-05".data = true := by
  refine ⟨by rfl, by rfl, by decide, by decide⟩

/-! ## Generic stepping lemmas for the runner -/

/-- The definitional unfolding of `runFrom` at a successor fuel value. -/
lemma runFrom_succ (env : Env) (fuel : Nat) (n : NodeId)
    (st : CustomerSupportState) (k : Nat) :
    runFrom env (fuel + 1) n st k =
      (match execNode env n st k with
       | .error e => .error e
       | .ok (upd, k') =>
         let st' := mergeUpdate st upd
         match nextNode n st' with
         | .error e => .error e
         | .ok none => .ok (st', k', [(nodeName n, upd)])
         | .ok (some n') =>
           match runFrom env fuel n' st' k' with
           | .error e => .error e
           | .ok (fs, kf, evs) => .ok (fs, kf, (nodeName n, upd) :: evs)) := rfl

/-- Whatever `_identify_node` returns, its mapping carries the input
history, takeover flag, active agent and token counter unchanged, and it
makes no reasoning call. -/
lemma identify_node_ok (env : Env) (st : CustomerSupportState) (k : Nat)
    (upd : CustomerSupportState) (k' : Nat)
    (h : identify_node env st k = .ok (upd, k')) :
    upd.messages = st.messages ∧ upd.is_human_takeover = st.is_human_takeover ∧
    upd.active_agent = st.active_agent ∧ upd.total_tokens = st.total_tokens ∧
    k' = k := by
  unfold identify_node at h
  dsimp only at h
  split at h
  · simp only [Except.ok.injEq, Prod.mk.injEq] at h
    obtain ⟨rfl, rfl⟩ := h
    exact ⟨rfl, rfl, rfl, rfl, rfl⟩
  · split at h
    · simp only [Except.ok.injEq, Prod.mk.injEq] at h
      obtain ⟨rfl, rfl⟩ := h
      exact ⟨rfl, rfl, rfl, rfl, rfl⟩
    · split at h
      · exact absurd h (by simp)
      · simp only [Except.ok.injEq, Prod.mk.injEq] at h
        obtain ⟨rfl, rfl⟩ := h
        exact ⟨rfl, rfl, rfl, rfl, rfl⟩
      · simp only [Except.ok.injEq, Prod.mk.injEq] at h
        obtain ⟨rfl, rfl⟩ := h
        exact ⟨rfl, rfl, rfl, rfl, rfl⟩

/-! ## C1 — advance after human takeover -/

/-- C1 counterexample: re-invoking `send_message` on a taken-over state
does yield `active_agent = end`, but it DOES append assistant-role
messages: the `identify` and `supervisor` steps both return the full
history under the additive `messages` channel, so the pre-existing
assistant greeting is re-appended (the history is quadrupled). -/
theorem C1_counterexample :
    (send_message envNoRoute stTakenOver "hi").map
        (fun s => (s.active_agent, s.messages.length,
          (s.messages.drop 2).any (fun m => decide (m.role = Role.assistant)))) =
      .ok ("end", 8, true) := by
  rfl

/-- C1 as amended: on a taken-over state `send_message` always yields
`active_agent = end` with the takeover flag still set, makes no
reasoning call, and produces no NEW assistant message — but the
`identify` and `supervisor` steps each re-append the whole history
through the additive channel, so the result's message list is exactly
four copies of the ingested history. -/
theorem C1_takeover_amended (env : Env) (st : CustomerSupportState)
    (msg : String) (fs : CustomerSupportState)
    (hT : st.is_human_takeover = true)
    (h : send_message env st msg = .ok fs) :
    fs.active_agent = "end" ∧ fs.is_human_takeover = true ∧
    routerCalls env st msg = .ok 0 ∧
    fs.messages =
      (ingest st msg).messages ++ (ingest st msg).messages ++
        ((ingest st msg).messages ++ (ingest st msg).messages) := by
  set st1 := ingest st msg with hst1
  have hT1 : st1.is_human_takeover = true := hT
  cases hid : execNode env .identify st1 0 with
  | error e =>
    have : send_message env st msg = .error e := by
      unfold send_message runGraph recursion_limit
      rw [show (25 : Nat) = 24 + 1 from rfl, runFrom_succ, ← hst1, hid]
      rfl
    rw [h] at this
    exact absurd this (by simp)
  | ok p =>
    obtain ⟨upd, k'⟩ := p
    obtain ⟨hm, hto, _, _, hk⟩ := identify_node_ok env st1 0 upd k' hid
    subst hk
    -- the supervisor step on the merged state short-circuits to `end`
    have hsup : execNode env .supervisor (mergeUpdate st1 upd) 0 =
        .ok ({ mergeUpdate st1 upd with active_agent := "end" }, 0) := by
      show supervisor_node env (mergeUpdate st1 upd) 0 = _
      unfold supervisor_node
      have hmt : (mergeUpdate st1 upd).is_human_takeover = true := by
        show upd.is_human_takeover = true
        rw [hto, hT1]
      rw [if_pos hmt]
    have hnext2 : nextNode .supervisor
        (mergeUpdate (mergeUpdate st1 upd)
          ({ mergeUpdate st1 upd with active_agent := "end" })) = .ok none := rfl
    have hrg : runGraph env st1 =
        .ok (mergeUpdate (mergeUpdate st1 upd)
              ({ mergeUpdate st1 upd with active_agent := "end" }), 0,
             [("identify", upd),
              ("supervisor", { mergeUpdate st1 upd with active_agent := "end" })]) := by
      unfold runGraph recursion_limit
      rw [show (25 : Nat) = 24 + 1 from rfl, runFrom_succ, hid]
      dsimp only [nextNode]
      rw [show (24 : Nat) = 23 + 1 from rfl, runFrom_succ, hsup]
      dsimp only
      rw [hnext2]
      rfl
    have hfs : fs = mergeUpdate (mergeUpdate st1 upd)
        ({ mergeUpdate st1 upd with active_agent := "end" }) := by
      have hsm : send_message env st msg =
          .ok (mergeUpdate (mergeUpdate st1 upd)
            ({ mergeUpdate st1 upd with active_agent := "end" })) := by
        unfold send_message
        rw [← hst1, hrg]
        rfl
      rw [h] at hsm
      injection hsm
    refine ⟨?_, ?_, ?_, ?_⟩
    · rw [hfs]
      rfl
    · rw [hfs]
      show upd.is_human_takeover = true
      rw [hto, hT1]
    · unfold routerCalls
      rw [← hst1, hrg]
      rfl
    · rw [hfs]
      show (st1.messages ++ upd.messages) ++ (st1.messages ++ upd.messages) = _
      rw [hm]

/-- The state actually returned by `send_message` on the concrete
taken-over state (extracted so the witness can name it). -/
def fsTakenOver : CustomerSupportState :=
  ((send_message envNoRoute stTakenOver "hi").toOption).getD start_conversation

/-- C1 witness for the amended theorem, at a concrete taken-over
state. -/
theorem C1_takeover_witness :
    stTakenOver.is_human_takeover = true ∧
    send_message envNoRoute stTakenOver "hi" = .ok fsTakenOver ∧
    fsTakenOver.active_agent = "end" ∧
    routerCalls envNoRoute stTakenOver "hi" = .ok 0 := by
  have h := C1_takeover_amended envNoRoute stTakenOver "hi" fsTakenOver rfl rfl
  exact ⟨rfl, rfl, h.1, h.2.2.1⟩

/-- A conversation whose latest message is the dispute request. -/
def stDispute : CustomerSupportState :=
  { start_conversation with
    messages := start_conversation.messages ++
      [⟨Role.human, "I want to dispute this charge"⟩] }

/-- An unidentified conversation whose latest message carries an email
address that the directory does not know. -/
def stUnknownEmail : CustomerSupportState :=
  { start_conversation with
    messages := start_conversation.messages ++
      [⟨Role.human, "my address is nobody@nowhere.io"⟩] }

/-! ## C5 — billing trigger words and escalation -/

/-- C5 counterexample: with the latest message `"I want to dispute this
charge"` the billing node runs and sets `active_agent = escalate`, but
control returns to the supervisor (the `billing_agent → supervisor` edge
is unconditional), which overwrites `active_agent` with its next routing
decision — here `general_support`, then `end` — so the escalation
handler never runs: no ticket message appears and the returned state has
`is_human_takeover = false`. -/
theorem C5_counterexample :
    (stream_message envBilling start_conversation "I want to dispute this charge").map
        (fun evs => evs.map Prod.fst) =
      .ok ["identify", "supervisor", "billing_agent", "supervisor",
           "general_agent", "supervisor"] ∧
    (send_message envBilling start_conversation "I want to dispute this charge").map
        (fun s => (s.is_human_takeover,
          s.messages.any (fun m => containsSub "Ticket #" m.content))) =
      .ok (false, false) := by
  exact ⟨rfl, rfl⟩

/-- C5 as amended: on a trigger word the billing node yields
`active_agent = escalate` and produces no new assistant message (its
mapping carries only the existing history); the escalation handler, when
it runs and its storage calls succeed, appends one assistant message
naming the ticket id and sets `is_human_takeover = true`; but the
billing node's successor is the supervisor, whose next routing decision
determines whether the escalation handler actually runs. -/
theorem C5_billing_escalation_amended :
    (∀ (st : CustomerSupportState) (k : Nat) (lm : Message),
      st.messages.getLast? = some lm →
      (containsSub "refund" (pyLower lm.content) ||
       containsSub "charge" (pyLower lm.content) ||
       containsSub "dispute" (pyLower lm.content)) = true →
      billing_agent_node st k = .ok ({ st with active_agent := "escalate" }, k)) ∧
    (∀ (env : Env) (st : CustomerSupportState) (k : Nat) (tid : String),
      env.saveConversation (st.messages.map (fun m => scrub_pii m.content)) = .ok () →
      env.createTicket st.customer_id = .ok tid →
      escalation_node env st k =
        .ok ({ st with
          messages := [⟨Role.assistant,
            "ESCALATION: A human will help you. Ticket #" ++ tid ++ ". AI is now paused."⟩],
          is_human_takeover := true }, k)) ∧
    (∀ st : CustomerSupportState, nextNode .billing_agent st = .ok (some .supervisor)) := by
  refine ⟨?_, ?_, fun _ => rfl⟩
  · intro st k lm hlm htrig
    unfold billing_agent_node
    rw [hlm]
    dsimp only
    rw [if_pos htrig]
  · intro env st k tid hsave htick
    unfold escalation_node
    rw [hsave, htick]

/-- C5 witness: the amended theorem applied at the dispute message and
at a concrete escalation environment. -/
theorem C5_billing_escalation_witness :
    billing_agent_node stDispute 0 = .ok ({ stDispute with active_agent := "escalate" }, 0) ∧
    escalation_node envNoRoute stDispute 0 =
      .ok ({ stDispute with
        messages := [⟨Role.assistant,
          "ESCALATION: A human will help you. Ticket #TICK-260101120000. AI is now paused."⟩],
        is_human_takeover := true }, 0) := by
  refine ⟨?_, ?_⟩
  · exact C5_billing_escalation_amended.1 stDispute 0
      ⟨Role.human, "I want to dispute this charge"⟩ rfl (by decide)
  · exact C5_billing_escalation_amended.2.1 envNoRoute stDispute 0
      "TICK-260101120000" rfl rfl

/-! ## C8 — directory/storage failure during identify or order lookup -/

/-- C8 counterexample: when the order lookup raises, the exception is
NOT recovered as an empty result — `_order_agent_node` wraps the call in
no handler, so the error surfaces to the caller. -/
theorem C8_counterexample :
    send_message envOrderFail stCustomerC1 "where is my order" =
      .error .storageError := by
  rfl

/-- C8 as amended: a lookup that RETURNS no record (or an empty order
list) is handled as an unidentified / no-orders turn; but a lookup call
that RAISES propagates out of the node uncaught. -/
theorem C8_lookup_amended :
    (∀ (env : Env) (st : CustomerSupportState) (k : Nat) (email : String),
      st.customer_id = none →
      emailSearch (((st.messages.getLast?).map Message.content).getD "") = some email →
      env.lookupByEmail email = .ok none →
      identify_node env st k = .ok (st, k)) ∧
    (∀ (env : Env) (st : CustomerSupportState) (k : Nat) (cid : String),
      st.customer_id = some cid →
      env.lookupOrders cid = .ok [] →
      order_agent_node env st k =
        .ok ({ st with messages :=
          [⟨Role.assistant, "I found no active orders in your history.\nAnything else?"⟩] }, k)) := by
  constructor
  · intro env st k email hcid hmail hdb
    unfold identify_node
    rw [hcid]
    dsimp only
    rw [hmail]
    dsimp only
    rw [hdb]
    rfl
  · intro env st k cid hcid hdb
    unfold order_agent_node
    rw [hcid]
    dsimp only
    rw [hdb]
    rfl

/-- C8 witness: the amended theorem applied at concrete states — an
unidentified state whose last message carries an unknown email, and an
identified customer with an empty order history. -/
theorem C8_lookup_witness :
    identify_node envNoRoute stUnknownEmail 0 = .ok (stUnknownEmail, 0) ∧
    order_agent_node envNoRoute stCustomerC1 0 =
      .ok ({ stCustomerC1 with messages :=
        [⟨Role.assistant, "I found no active orders in your history.\nAnything else?"⟩] }, 0) := by
  refine ⟨?_, ?_⟩
  · exact C8_lookup_amended.1 envNoRoute stUnknownEmail 0 "nobody@nowhere.io" rfl rfl rfl
  · exact C8_lookup_amended.2 envNoRoute stCustomerC1 0 "C1" rfl rfl

/-! ## C4 — routing-decision failure -/

/-- Dropping a prefix does not change the last element. -/
lemma getLast?_drop_ne_nil {α : Type} (l : List α) (n : Nat) (h : l.drop n ≠ []) :
    (l.drop n).getLast? = l.getLast? := by
  conv_rhs => rw [← List.take_append_drop n l]
  rw [List.getLast?_append_of_ne_nil _ h]

/-- `_trim_messages` preserves the last message. -/
lemma getLast?_trim (ms : List Message) :
    (_trim_messages ms 10).getLast? = ms.getLast? := by
  by_cases h : ms.length ≤ 10
  · unfold _trim_messages
    rw [if_pos h]
  · obtain ⟨m0, rest, rfl⟩ : ∃ m0 rest, ms = m0 :: rest := by
      cases ms with
      | nil => simp at h
      | cons a l => exact ⟨a, l, rfl⟩
    rw [trim_cons_eq, if_neg h]
    have hlen : 10 < (m0 :: rest).length := by omega
    by_cases hs : m0.role = Role.system
    · rw [if_pos hs]
      have hd : (m0 :: rest).drop ((m0 :: rest).length - 9) ≠ [] := by
        rw [Ne, List.drop_eq_nil_iff]
        omega
      have h1 : (m0 :: (m0 :: rest).drop ((m0 :: rest).length - 9)).getLast? =
          ((m0 :: rest).drop ((m0 :: rest).length - 9)).getLast? := by
        show ([m0] ++ (m0 :: rest).drop ((m0 :: rest).length - 9)).getLast? = _
        rw [List.getLast?_append_of_ne_nil _ hd]
      rw [h1, getLast?_drop_ne_nil _ _ hd]
    · rw [if_neg hs]
      have hd : (m0 :: rest).drop ((m0 :: rest).length - 10) ≠ [] := by
        rw [Ne, List.drop_eq_nil_iff]
        omega
      rw [getLast?_drop_ne_nil _ _ hd]

/-- When the reasoning call raises, `_supervisor_node` fails open to
`general_support` and surfaces no error. -/
lemma supervisor_failopen (env : Env) (st : CustomerSupportState) (k : Nat)
    (lm : Message)
    (hT : st.is_human_takeover = false)
    (hlast : st.messages.getLast? = some lm)
    (hnc : ¬(lm.role = Role.assistant ∧ containsSub "help you today" lm.content = true))
    (hfail : env.route k ("Supervisor: Decide specialist based on: " ++ lm.content) =
      .error ()) :
    supervisor_node env st k = .ok ({ st with active_agent := "general_support" }, k + 1) := by
  unfold supervisor_node
  rw [hT]
  dsimp only
  rw [getLast?_trim, hlast]
  dsimp only
  rw [if_neg hnc, hfail]
  rfl

/-- The invariant of the supervisor / generalist ping-pong under a
persistently failing router: takeover is off and the last message never
contains the closing phrase. -/
def NoClose (st : CustomerSupportState) : Prop :=
  st.is_human_takeover = false ∧ st.messages ≠ [] ∧
  ∀ m, st.messages.getLast? = some m →
    ¬(m.role = Role.assistant ∧ containsSub "help you today" m.content = true)

/-- Under `envNoRoute` the `supervisor ↔ general_agent` loop never
terminates: any fuel is exhausted and the recursion error surfaces. -/
lemma noroute_loop (fuel : Nat) :
    (∀ st k, NoClose st →
      runFrom envNoRoute fuel .supervisor st k = .error .recursionLimit) ∧
    (∀ st k, NoClose st →
      runFrom envNoRoute fuel .general_agent st k = .error .recursionLimit) := by
  induction fuel with
  | zero => exact ⟨fun _ _ _ => rfl, fun _ _ _ => rfl⟩
  | succ f ih =>
    constructor
    · intro st k hInv
      obtain ⟨hT, hne, hnc⟩ := hInv
      obtain ⟨lm, hlm⟩ : ∃ m, st.messages.getLast? = some m := by
        cases hgl : st.messages.getLast? with
        | none => exact absurd (List.getLast?_eq_none_iff.mp hgl) hne
        | some m => exact ⟨m, rfl⟩
      have hsup : execNode envNoRoute .supervisor st k =
          .ok ({ st with active_agent := "general_support" }, k + 1) := by
        show supervisor_node envNoRoute st k = _
        exact supervisor_failopen envNoRoute st k lm hT hlm (hnc lm hlm) rfl
      rw [runFrom_succ, hsup]
      dsimp only
      have hnx : nextNode .supervisor
          (mergeUpdate st ({ st with active_agent := "general_support" })) =
          .ok (some .general_agent) := rfl
      rw [hnx]
      dsimp only
      have hInv2 : NoClose (mergeUpdate st ({ st with active_agent := "general_support" })) := by
        refine ⟨hT, by simp [mergeUpdate, hne], ?_⟩
        intro m hm
        rw [show (mergeUpdate st ({ st with active_agent := "general_support" })).messages =
              st.messages ++ st.messages from rfl,
            List.getLast?_append_of_ne_nil _ hne, hlm] at hm
        injection hm with hm
        subst hm
        exact hnc lm hlm
      rw [(ih.2 _ (k + 1) hInv2 :
        runFrom envNoRoute f .general_agent
          (mergeUpdate st ({ st with active_agent := "general_support" })) (k + 1) =
          .error .recursionLimit)]
    · intro st k hInv
      obtain ⟨hT, hne, _⟩ := hInv
      have hgen : execNode envNoRoute .general_agent st k =
          .ok ({ st with messages :=
            [⟨Role.assistant, "Generalist here. How can I help you?"⟩] }, k) := rfl
      rw [runFrom_succ, hgen]
      dsimp only
      have hnx : nextNode .general_agent
          (mergeUpdate st ({ st with messages :=
            [⟨Role.assistant, "Generalist here. How can I help you?"⟩] })) =
          .ok (some .supervisor) := rfl
      rw [hnx]
      dsimp only
      have hInv2 : NoClose (mergeUpdate st ({ st with messages :=
          [⟨Role.assistant, "Generalist here. How can I help you?"⟩] })) := by
        refine ⟨hT, by simp [mergeUpdate], ?_⟩
        intro m hm
        rw [show (mergeUpdate st ({ st with messages :=
              [⟨Role.assistant, "Generalist here. How can I help you?"⟩] })).messages =
              st.messages ++ [⟨Role.assistant, "Generalist here. How can I help you?"⟩]
              from rfl] at hm
        simp only [List.getLast?_append_of_ne_nil _ (by simp :
          ([⟨Role.assistant, "Generalist here. How can I help you?"⟩] : List Message) ≠ [])] at hm
        simp only [List.getLast?_singleton, Option.some.injEq] at hm
        subst hm
        intro hc
        exact absurd hc.2 (by decide)
      rw [(ih.1 _ k hInv2 :
        runFrom envNoRoute f .supervisor
          (mergeUpdate st ({ st with messages :=
            [⟨Role.assistant, "Generalist here. How can I help you?"⟩] })) k =
          .error .recursionLimit)]

/-- C4 counterexample: a persistent decision-capability outage DOES
surface an error — each supervisor step fails open to `general_support`,
but the generalist loops back to the supervisor, the closing phrase
never appears, and after 25 steps the recursion error aborts the turn. -/
theorem C4_counterexample :
    send_message envNoRoute start_conversation "hello" = .error .recursionLimit := by
  unfold send_message runGraph recursion_limit
  rw [show (25 : Nat) = 24 + 1 from rfl, runFrom_succ]
  have hid : execNode envNoRoute .identify (ingest start_conversation "hello") 0 =
      .ok (ingest start_conversation "hello", 0) := rfl
  rw [hid]
  dsimp only
  have hnx : nextNode .identify
      (mergeUpdate (ingest start_conversation "hello") (ingest start_conversation "hello")) =
      .ok (some .supervisor) := rfl
  rw [hnx]
  dsimp only
  have hInv : NoClose (mergeUpdate (ingest start_conversation "hello")
      (ingest start_conversation "hello")) := by
    refine ⟨rfl, by decide, ?_⟩
    intro m hm
    have : (mergeUpdate (ingest start_conversation "hello")
        (ingest start_conversation "hello")).messages.getLast? =
        some ⟨Role.human, "hello"⟩ := rfl
    rw [this] at hm
    injection hm with hm
    subst hm
    intro hc
    exact absurd hc.1 (by decide)
  rw [((noroute_loop 24).1 _ 0 hInv :
    runFrom envNoRoute 24 .supervisor
      (mergeUpdate (ingest start_conversation "hello") (ingest start_conversation "hello")) 0 =
      .error .recursionLimit)]
  rfl

/-- C4 as amended: each individual supervisor step whose routing call
raises yields `active_agent = general_support` and surfaces no error
from that step; but when the outage persists the supervisor–generalist
loop repeats until the 25-step bound is exhausted and a recursion error
IS surfaced to the caller. -/
theorem C4_failopen_amended (env : Env) (st : CustomerSupportState) (k : Nat)
    (lm : Message)
    (hT : st.is_human_takeover = false)
    (hlast : st.messages.getLast? = some lm)
    (hnc : ¬(lm.role = Role.assistant ∧ containsSub "help you today" lm.content = true))
    (hfail : env.route k ("Supervisor: Decide specialist based on: " ++ lm.content) =
      .error ()) :
    supervisor_node env st k = .ok ({ st with active_agent := "general_support" }, k + 1) :=
  supervisor_failopen env st k lm hT hlast hnc hfail

/-- C4 witness: the amended theorem applied at a concrete state under
the always-raising router. -/
theorem C4_failopen_witness :
    stDispute.is_human_takeover = false ∧
    supervisor_node envNoRoute stDispute 0 =
      .ok ({ stDispute with active_agent := "general_support" }, 1) := by
  refine ⟨rfl, ?_⟩
  exact C4_failopen_amended envNoRoute stDispute 0
    ⟨Role.human, "I want to dispute this charge"⟩ rfl rfl
    (by intro hc; exact absurd hc.1 (by decide)) rfl

/-! ## Structural lemmas about one runner step -/

/-- Destructor for a successful `runFrom` step at successor fuel. -/
lemma runFrom_succ_ok (env : Env) (f : Nat) (n : NodeId)
    (st : CustomerSupportState) (k : Nat)
    (fs : CustomerSupportState) (kf : Nat) (evs : List (String × CustomerSupportState))
    (h : runFrom env (f + 1) n st k = .ok (fs, kf, evs)) :
    ∃ upd k', execNode env n st k = .ok (upd, k') ∧
      ((nextNode n (mergeUpdate st upd) = .ok none ∧
        fs = mergeUpdate st upd ∧ kf = k' ∧ evs = [(nodeName n, upd)]) ∨
       (∃ n' evs2, nextNode n (mergeUpdate st upd) = .ok (some n') ∧
        runFrom env f n' (mergeUpdate st upd) k' = .ok (fs, kf, evs2) ∧
        evs = (nodeName n, upd) :: evs2)) := by
  rw [runFrom_succ] at h
  cases hex : execNode env n st k with
  | error e =>
    rw [hex] at h
    exact absurd h (by simp)
  | ok p =>
    obtain ⟨upd, k'⟩ := p
    rw [hex] at h
    dsimp only at h
    refine ⟨upd, k', rfl, ?_⟩
    cases hnx : nextNode n (mergeUpdate st upd) with
    | error e =>
      rw [hnx] at h
      exact absurd h (by simp)
    | ok o =>
      rw [hnx] at h
      cases o with
      | none =>
        dsimp only at h
        simp only [Except.ok.injEq, Prod.mk.injEq] at h
        exact Or.inl ⟨rfl, h.1.symm, h.2.1.symm, h.2.2.symm⟩
      | some n' =>
        dsimp only at h
        cases hrec : runFrom env f n' (mergeUpdate st upd) k' with
        | error e =>
          rw [hrec] at h
          exact absurd h (by simp)
        | ok q =>
          obtain ⟨fs2, kf2, evs2⟩ := q
          rw [hrec] at h
          dsimp only at h
          simp only [Except.ok.injEq, Prod.mk.injEq] at h
          obtain ⟨h1, h2, h3⟩ := h
          subst h1
          subst h2
          exact Or.inr ⟨n', evs2, rfl, hrec, h3.symm⟩

/-- No edge of the graph leads back to the entry point. -/
lemma nextNode_ne_identify (n : NodeId) (st : CustomerSupportState) (n' : NodeId)
    (h : nextNode n st = .ok (some n')) : n' ≠ .identify := by
  cases n with
  | identify =>
    simp only [nextNode, Except.ok.injEq, Option.some.injEq] at h
    subst h
    decide
  | supervisor =>
    unfold nextNode at h
    dsimp only at h
    split_ifs at h <;>
      simp only [Except.ok.injEq, Option.some.injEq, reduceCtorEq] at h <;>
      (subst h; decide)
  | order_agent =>
    simp only [nextNode, Except.ok.injEq, Option.some.injEq] at h
    subst h
    decide
  | tech_agent =>
    simp only [nextNode, Except.ok.injEq, Option.some.injEq] at h
    subst h
    decide
  | billing_agent =>
    simp only [nextNode, Except.ok.injEq, Option.some.injEq] at h
    subst h
    decide
  | general_agent =>
    simp only [nextNode, Except.ok.injEq, Option.some.injEq] at h
    subst h
    decide
  | escalate => simp [nextNode] at h

/-- A node is called `"identify"` exactly when it is the entry point. -/
lemma nodeName_identify_iff (n : NodeId) : nodeName n = "identify" ↔ n = .identify := by
  cases n <;> simp [nodeName]

/-! ## C6 — per-turn traversal bound -/

/-- Every successful run executes at most `fuel` nodes, and executes the
entry node exactly once when started there (never otherwise): no edge
returns to `identify`. -/
lemma runFrom_bound (env : Env) :
    ∀ fuel (n : NodeId) (st : CustomerSupportState) (k : Nat) fs kf evs,
      runFrom env fuel n st k = .ok (fs, kf, evs) →
      evs.length ≤ fuel ∧
      (evs.map Prod.fst).count "identify" = (if n = .identify then 1 else 0) := by
  intro fuel
  induction fuel with
  | zero =>
    intro n st k fs kf evs h
    exact absurd h (by simp [runFrom])
  | succ f ih =>
    intro n st k fs kf evs h
    obtain ⟨upd, k', hex, hrest⟩ := runFrom_succ_ok env f n st k fs kf evs h
    cases hrest with
    | inl hend =>
      obtain ⟨_, _, _, hevs⟩ := hend
      subst hevs
      constructor
      · simp
      · simp only [List.map_cons, List.map_nil, List.count_cons, List.count_nil]
        by_cases hn : n = .identify
        · subst hn
          simp [nodeName]
        · rw [if_neg hn]
          have : ¬(nodeName n = "identify") := fun hh => hn ((nodeName_identify_iff n).mp hh)
          simp [this]
    | inr hrec =>
      obtain ⟨n', evs2, hnx, hrun, hevs⟩ := hrec
      subst hevs
      obtain ⟨hlen, hcount⟩ := ih n' _ k' fs kf evs2 hrun
      have hne' : n' ≠ .identify := nextNode_ne_identify n _ n' hnx
      constructor
      · simp only [List.length_cons]
        omega
      · simp only [List.map_cons, List.count_cons]
        rw [hcount, if_neg hne']
        by_cases hn : n = .identify
        · subst hn
          simp [nodeName]
        · rw [if_neg hn]
          have : ¬(nodeName n = "identify") := fun hh => hn ((nodeName_identify_iff n).mp hh)
          simp [this]

/-- C6 counterexample: with a router that answers `general_support`
twice and then `end`, the `supervisor → general_agent` edge is taken
TWICE within a single `send_message` turn — the "at most once per
specialist" bound does not hold (and nothing but the global 25-step
counter limits such repeats). -/
theorem C6_counterexample :
    (stream_message envGeneralTwice start_conversation "hi").map
        (fun evs => evs.map Prod.fst) =
      .ok ["identify", "supervisor", "general_agent", "supervisor",
           "general_agent", "supervisor"] ∧
    (stream_message envGeneralTwice start_conversation "hi").map
        (fun evs => (evs.map Prod.fst).count "general_agent") = .ok 2 := by
  exact ⟨rfl, rfl⟩

/-- C6 as amended: every successful turn is finite — it executes at most
25 nodes (the engine's default recursion limit, which surfaces a
recursion error when exceeded) and the identify step exactly once; but a
specialist may be executed several times in one turn if the router keeps
selecting it. -/
theorem C6_bound_amended (env : Env) (st : CustomerSupportState) (msg : String)
    (evs : List (String × CustomerSupportState))
    (h : stream_message env st msg = .ok evs) :
    evs.length ≤ recursion_limit ∧ (evs.map Prod.fst).count "identify" = 1 := by
  unfold stream_message at h
  cases hrg : runGraph env (ingest st msg) with
  | error e =>
    rw [hrg] at h
    exact absurd h (fun hh => Except.noConfusion hh)
  | ok r =>
    obtain ⟨fs, kf, evs0⟩ := r
    rw [hrg] at h
    injection h with h
    subst h
    unfold runGraph at hrg
    have := runFrom_bound env recursion_limit .identify (ingest st msg) 0 fs kf evs0 hrg
    exact ⟨this.1, this.2.trans (by decide)⟩

/-- The event list of the concrete double-generalist run (extracted so
the witness can name it). -/
def evsGeneralTwice : List (String × CustomerSupportState) :=
  ((stream_message envGeneralTwice start_conversation "hi").toOption).getD []

/-- C6 witness: the amended bound at a concrete successful run. -/
theorem C6_bound_witness :
    stream_message envGeneralTwice start_conversation "hi" = .ok evsGeneralTwice ∧
    evsGeneralTwice.length ≤ recursion_limit ∧
    (evsGeneralTwice.map Prod.fst).count "identify" = 1 := by
  have h := C6_bound_amended envGeneralTwice start_conversation "hi" evsGeneralTwice rfl
  exact ⟨rfl, h.1, h.2⟩

/-! ## C7 — streaming vs synchronous execution -/

/-- Every successful run's final state is the merge of the LAST streamed
update into the state reached before it. -/
lemma runFrom_last (env : Env) :
    ∀ fuel (n : NodeId) (st : CustomerSupportState) (k : Nat) fs kf evs,
      runFrom env fuel n st k = .ok (fs, kf, evs) →
      ∃ pre nm u, evs.getLast? = some (nm, u) ∧ fs = mergeUpdate pre u := by
  intro fuel
  induction fuel with
  | zero =>
    intro n st k fs kf evs h
    exact absurd h (fun hh => Except.noConfusion hh)
  | succ f ih =>
    intro n st k fs kf evs h
    obtain ⟨upd, k', hex, hrest⟩ := runFrom_succ_ok env f n st k fs kf evs h
    cases hrest with
    | inl hend =>
      obtain ⟨_, hfs, _, hevs⟩ := hend
      subst hevs
      exact ⟨st, nodeName n, upd, rfl, hfs⟩
    | inr hrec =>
      obtain ⟨n', evs2, hnx, hrun, hevs⟩ := hrec
      subst hevs
      obtain ⟨pre, nm, u, hl, hf⟩ := ih n' _ k' fs kf evs2 hrun
      refine ⟨pre, nm, u, ?_, hf⟩
      have hne : evs2 ≠ [] := by
        intro hnil
        rw [hnil] at hl
        exact Option.noConfusion hl
      show ([(nodeName n, upd)] ++ evs2).getLast? = _
      rw [List.getLast?_append_of_ne_nil _ hne, hl]

/-- The state actually returned by the synchronous run of the concrete
double-generalist scenario. -/
def fsGeneralTwice : CustomerSupportState :=
  ((send_message envGeneralTwice start_conversation "hi").toOption).getD start_conversation

/-- The final state and the state carried by the final streamed event of
the escalation scenario (extracted so the counterexample can name
them). -/
def fsEscalate : CustomerSupportState :=
  ((send_message envEscalate start_conversation "hi").toOption).getD start_conversation

def lastEvEscalate : String × CustomerSupportState :=
  ((((stream_message envEscalate start_conversation "hi").toOption).getD []).getLast?).getD
    ("", start_conversation)

/-- C7 counterexample: on the escalation run the final streamed event
carries the escalation node's returned mapping — a single-message
history — while the synchronous result is the reducer-merged state with
the full (9-message) history: the two states are NOT equal. -/
theorem C7_counterexample :
    send_message envEscalate start_conversation "hi" = .ok fsEscalate ∧
    (stream_message envEscalate start_conversation "hi").map (fun evs => evs.getLast?) =
      .ok (some lastEvEscalate) ∧
    lastEvEscalate.1 = "escalate" ∧
    lastEvEscalate.2.messages.length = 1 ∧
    fsEscalate.messages.length = 9 ∧
    lastEvEscalate.2 ≠ fsEscalate := by
  refine ⟨rfl, rfl, rfl, rfl, rfl, by decide⟩

/-- C7 as amended: streaming yields one event per executed node in
execution order (no reordering, duplication or drop — the event list is
the run's trace), and the synchronous result is the final event's state
merged into the state reached before it: both agree on every scalar
field, while the synchronous `messages` additionally carries the earlier
history ahead of the final update's messages. -/
theorem C7_stream_amended (env : Env) (st : CustomerSupportState) (msg : String)
    (fs : CustomerSupportState) (evs : List (String × CustomerSupportState))
    (hs : send_message env st msg = .ok fs)
    (hv : stream_message env st msg = .ok evs) :
    ∃ (pre : CustomerSupportState) (nm : String) (u : CustomerSupportState),
      evs.getLast? = some (nm, u) ∧
      fs.active_agent = u.active_agent ∧
      fs.is_human_takeover = u.is_human_takeover ∧
      fs.customer_id = u.customer_id ∧
      fs.total_tokens = u.total_tokens ∧
      fs.messages = pre.messages ++ u.messages := by
  unfold send_message at hs
  unfold stream_message at hv
  cases hrg : runGraph env (ingest st msg) with
  | error e =>
    rw [hrg] at hs
    exact absurd hs (fun hh => Except.noConfusion hh)
  | ok r =>
    obtain ⟨fs0, kf0, evs0⟩ := r
    rw [hrg] at hs hv
    injection hs with hs
    injection hv with hv
    subst hs
    subst hv
    obtain ⟨pre, nm, u, hl, hf⟩ :=
      runFrom_last env recursion_limit .identify (ingest st msg) 0 fs0 kf0 evs0 hrg
    subst hf
    exact ⟨pre, nm, u, hl, rfl, rfl, rfl, rfl, rfl⟩

/-- C7 witness: the amended relation at the concrete double-generalist
run. -/
theorem C7_stream_witness :
    send_message envGeneralTwice start_conversation "hi" = .ok fsGeneralTwice ∧
    stream_message envGeneralTwice start_conversation "hi" = .ok evsGeneralTwice ∧
    ∃ (pre : CustomerSupportState) (nm : String) (u : CustomerSupportState),
      evsGeneralTwice.getLast? = some (nm, u) ∧
      fsGeneralTwice.active_agent = u.active_agent ∧
      fsGeneralTwice.is_human_takeover = u.is_human_takeover ∧
      fsGeneralTwice.customer_id = u.customer_id ∧
      fsGeneralTwice.total_tokens = u.total_tokens ∧
      fsGeneralTwice.messages = pre.messages ++ u.messages := by
  exact ⟨rfl, rfl,
    C7_stream_amended envGeneralTwice start_conversation "hi"
      fsGeneralTwice evsGeneralTwice rfl rfl⟩

/-! ## C10 — token accounting -/

/-- No node's returned mapping changes `total_tokens`. -/
lemma execNode_tokens (env : Env) (n : NodeId) (st : CustomerSupportState) (k : Nat)
    (upd : CustomerSupportState) (k' : Nat)
    (h : execNode env n st k = .ok (upd, k')) :
    upd.total_tokens = st.total_tokens := by
  cases n with
  | identify => exact (identify_node_ok env st k upd k' h).2.2.2.1
  | supervisor =>
    replace h : supervisor_node env st k = .ok (upd, k') := h
    unfold supervisor_node at h
    dsimp only at h
    split at h
    · simp only [Except.ok.injEq, Prod.mk.injEq] at h
      rw [← h.1]
    · split at h
      · exact absurd h (fun hh => Except.noConfusion hh)
      · split at h
        · simp only [Except.ok.injEq, Prod.mk.injEq] at h
          rw [← h.1]
        · split at h
          · simp only [Except.ok.injEq, Prod.mk.injEq] at h
            rw [← h.1]
          · simp only [Except.ok.injEq, Prod.mk.injEq] at h
            rw [← h.1]
  | order_agent =>
    replace h : order_agent_node env st k = .ok (upd, k') := h
    unfold order_agent_node at h
    split at h
    · simp only [Except.ok.injEq, Prod.mk.injEq] at h
      rw [← h.1]
    · split at h
      · exact absurd h (fun hh => Except.noConfusion hh)
      · simp only [Except.ok.injEq, Prod.mk.injEq] at h
        rw [← h.1]
  | tech_agent =>
    replace h : tech_agent_node st k = .ok (upd, k') := h
    unfold tech_agent_node at h
    split at h
    · exact absurd h (fun hh => Except.noConfusion hh)
    · simp only [Except.ok.injEq, Prod.mk.injEq] at h
      rw [← h.1]
  | billing_agent =>
    replace h : billing_agent_node st k = .ok (upd, k') := h
    unfold billing_agent_node at h
    split at h
    · exact absurd h (fun hh => Except.noConfusion hh)
    · dsimp only at h
      split at h
      · simp only [Except.ok.injEq, Prod.mk.injEq] at h
        rw [← h.1]
      · simp only [Except.ok.injEq, Prod.mk.injEq] at h
        rw [← h.1]
  | general_agent =>
    replace h : general_support_node st k = .ok (upd, k') := h
    unfold general_support_node at h
    simp only [Except.ok.injEq, Prod.mk.injEq] at h
    rw [← h.1]
  | escalate =>
    replace h : escalation_node env st k = .ok (upd, k') := h
    unfold escalation_node at h
    split at h
    · exact absurd h (fun hh => Except.noConfusion hh)
    · split at h
      · exact absurd h (fun hh => Except.noConfusion hh)
      · simp only [Except.ok.injEq, Prod.mk.injEq] at h
        rw [← h.1]

/-- `total_tokens` is constant across a whole run: the final state and
every streamed snapshot carry the input's counter. -/
lemma runFrom_tokens (env : Env) :
    ∀ fuel (n : NodeId) (st : CustomerSupportState) (k : Nat) fs kf evs,
      runFrom env fuel n st k = .ok (fs, kf, evs) →
      fs.total_tokens = st.total_tokens ∧
      ∀ e ∈ evs, e.2.total_tokens = st.total_tokens := by
  intro fuel
  induction fuel with
  | zero =>
    intro n st k fs kf evs h
    exact absurd h (fun hh => Except.noConfusion hh)
  | succ f ih =>
    intro n st k fs kf evs h
    obtain ⟨upd, k', hex, hrest⟩ := runFrom_succ_ok env f n st k fs kf evs h
    have htok : upd.total_tokens = st.total_tokens := execNode_tokens env n st k upd k' hex
    have hmtok : (mergeUpdate st upd).total_tokens = st.total_tokens := htok
    cases hrest with
    | inl hend =>
      obtain ⟨_, hfs, _, hevs⟩ := hend
      subst hevs
      subst hfs
      refine ⟨hmtok, ?_⟩
      intro e he
      simp only [List.mem_singleton] at he
      subst he
      exact htok
    | inr hrec =>
      obtain ⟨n', evs2, hnx, hrun, hevs⟩ := hrec
      subst hevs
      obtain ⟨hfs, hevs2⟩ := ih n' _ k' fs kf evs2 hrun
      refine ⟨hfs.trans hmtok, ?_⟩
      intro e he
      simp only [List.mem_cons] at he
      cases he with
      | inl he =>
        subst he
        exact htok
      | inr he => exact (hevs2 e he).trans hmtok

/-- C10: both `send_message` and `stream_message` bump `total_tokens` by
exactly `2 * (number of whitespace words of the redacted input) + 100`
before graph execution; no node changes it, so the final state (and
every streamed snapshot) carries exactly that value, which strictly
exceeds the previous counter even for empty input. -/
theorem C10_token_accounting (env : Env) (st : CustomerSupportState) (msg : String)
    (fs : CustomerSupportState) (evs : List (String × CustomerSupportState))
    (hs : send_message env st msg = .ok fs)
    (hv : stream_message env st msg = .ok evs) :
    (ingest st msg).total_tokens =
      st.total_tokens + ((pySplit (scrub_pii msg)).length * 2 + 100) ∧
    fs.total_tokens = st.total_tokens + ((pySplit (scrub_pii msg)).length * 2 + 100) ∧
    st.total_tokens < fs.total_tokens ∧
    ∀ e ∈ evs, e.2.total_tokens =
      st.total_tokens + ((pySplit (scrub_pii msg)).length * 2 + 100) := by
  unfold send_message at hs
  unfold stream_message at hv
  cases hrg : runGraph env (ingest st msg) with
  | error e =>
    rw [hrg] at hs
    exact absurd hs (fun hh => Except.noConfusion hh)
  | ok r =>
    obtain ⟨fs0, kf0, evs0⟩ := r
    rw [hrg] at hs hv
    injection hs with hs
    injection hv with hv
    subst hs
    subst hv
    obtain ⟨hfs, hevs⟩ :=
      runFrom_tokens env recursion_limit .identify (ingest st msg) 0 fs0 kf0 evs0 hrg
    have hing : (ingest st msg).total_tokens =
        st.total_tokens + ((pySplit (scrub_pii msg)).length * 2 + 100) := rfl
    refine ⟨hing, hfs.trans hing, ?_, fun e he => (hevs e he).trans hing⟩
    rw [hfs.trans hing]
    omega

/-- C10 witness: the accounting at a concrete run (`"hi"` is one word:
`0 + 1 * 2 + 100 = 102` tokens after the turn). -/
theorem C10_token_witness :
    send_message envGeneralTwice start_conversation "hi" = .ok fsGeneralTwice ∧
    fsGeneralTwice.total_tokens =
      start_conversation.total_tokens + ((pySplit (scrub_pii "hi")).length * 2 + 100) ∧
    start_conversation.total_tokens < fsGeneralTwice.total_tokens ∧
    fsGeneralTwice.total_tokens = 102 := by
  have h := C10_token_accounting envGeneralTwice start_conversation "hi"
    fsGeneralTwice evsGeneralTwice rfl rfl
  exact ⟨rfl, h.2.1, h.2.2.1, rfl⟩

end SupportAgent
